import Mathlib

/-!
# Shallow embedding of the moonshine_cpp transcription core

This file embeds the core of `moonshine_cpp` (files `moonshine.h`,
`moonshine_onnx_model.h`, `moonshine_onnx_model.cpp`,
`moonshine_transcribe.cpp`) in Lean 4 and settles the spec claims.

Modelling conventions:
* An `Ort::Value` tensor is a `Tensor`: an explicit shape (`List Int`,
  the C++ `std::vector<int64_t>`) plus flat float data.  IEEE floats are
  modelled as exact rationals (`ℚ`); the claims under study never depend
  on rounding of float arithmetic, only on comparisons and on the shape
  metadata.  `clone_tensor` copies shape and data, i.e. it is the
  identity on values, so clones are elided.
* The external ONNX inference engine is an oracle: `encoder.Run` is an
  arbitrary function from audio to a list of output tensors, and
  `decoder.Run` an arbitrary function from the decoder inputs
  (current token list, hidden state, kv cache, use_cache_branch flag)
  to a list of output tensors.  The external tokenizer is an arbitrary
  function `List Int → String`.
* C++ exceptions are modelled with `Except String`.  `OnnxModel::run`
  and `Transcriber::transcribe` are declared `noexcept` in the source
  and contain no `try`/`catch`: an exception reaching them calls
  `std::terminate`.  Hence an `Except.error` value escaping the
  embedded `run`/`transcribe` models process termination (the caller
  never receives a value), not a returned result.
-/

namespace Moonshine

/-- An `Ort::Value` float tensor: shape metadata plus flat data. -/
structure Tensor where
  shape : List Int
  data : List ℚ
deriving Repr, DecidableEq

/-- `shape[i]` on the C++ `std::vector<int64_t>`.  C++ indexing requires
`i < shape.size()`; theorems carry that bound as a hypothesis, which makes
the default value irrelevant. -/
def tensor_dim (t : Tensor) (i : Nat) : Int :=
  t.shape.getD i 0

/-- `OnnxModel::start_token` (moonshine_onnx_model.h). -/
def start_token : Int := 1

/-- `OnnxModel::end_token` (moonshine_onnx_model.h). -/
def end_token : Int := 2

/-- `OnnxModel::sample_rate` (moonshine_onnx_model.h). -/
def sample_rate : Nat := 16000

/-- `OnnxModel::max_tokens_per_second` (moonshine_onnx_model.h). -/
def max_tokens_per_second : Nat := 6

/-- `OnnxModel::min_token_count` (moonshine_onnx_model.h). -/
def min_token_count : Nat := 1

/-- The per-model-family constants passed to the private `OnnxModel`
constructor. -/
structure ModelConfig where
  num_layers : Int
  num_kv_heads : Int
  head_dim : Int
deriving Repr, DecidableEq

/-- `OnnxModel::Base`: constructs the model with
`num_layers = 8, num_kv_heads = 8, head_dim = 52`. -/
def baseConfig : ModelConfig := { num_layers := 8, num_kv_heads := 8, head_dim := 52 }

/-- `OnnxModel::Tiny`: constructs the model with
`num_layers = 6, num_kv_heads = 8, head_dim = 36`. -/
def tinyConfig : ModelConfig := { num_layers := 6, num_kv_heads := 8, head_dim := 36 }

/-- `ModelType::Type` (moonshine.h). -/
inductive ModelType where
  | Base
  | Tiny
deriving Repr, DecidableEq

/-- The `switch (model_type)` in the `Transcriber` constructor
(moonshine_transcribe.cpp): `Base ↦ OnnxModel::Base`,
`Tiny ↦ OnnxModel::Tiny`. -/
def transcriber_model_config : ModelType → ModelConfig
  | .Base => baseConfig
  | .Tiny => tinyConfig

/-- `ModelType::from_string` (moonshine.h): lower-case the string with
`::tolower` per character, then compare against `"base"` and `"tiny"`.
`Char.toLower` agrees with C-locale `::tolower` on all inputs the claims
mention (ASCII). -/
def from_string (str : String) : Option ModelType :=
  let str_lower : String := String.mk (str.toList.map Char.toLower)
  if str_lower = "base" then some ModelType.Base
  else if str_lower = "tiny" then some ModelType.Tiny
  else none

/-- `hay.find(needle) != std::string::npos`: substring containment,
checked by scanning every suffix. -/
def list_contains_sub (needle : List Char) : List Char → Bool
  | [] => needle.isEmpty
  | c :: cs => needle.isPrefixOf (c :: cs) || list_contains_sub needle cs

/-- `key_str.find(past_key_prefix) != std::string::npos`
(moonshine_onnx_model.cpp, `initialize_past_key_values`). -/
def str_contains_sub (hay needle : String) : Bool :=
  list_contains_sub needle.toList hay.toList

/-- `OnnxModel::initialize_past_key_values`: one empty tensor of shape
`[0, num_kv_heads, 1, head_dim]` per decoder input name containing
`"past_key_values"`, in declaration order. -/
def initialize_past_key_values (cfg : ModelConfig) (decoder_input_names : List String) :
    List Tensor :=
  (decoder_input_names.filter (fun key => str_contains_sub key "past_key_values")).map
    (fun _ => { shape := [0, cfg.num_kv_heads, 1, cfg.head_dim], data := [] })

/-- The replacement trigger of `OnnxModel::update_kv_cache`:
`past_kv_empty || is_decoder_kv || !use_cache_branch`. -/
def kv_replace_cond (cache_entry new_value : Tensor) (use_cache_branch : Bool) : Bool :=
  (tensor_dim cache_entry 0 == 0) || (tensor_dim new_value 2 > 1) || !use_cache_branch

/-- `OnnxModel::update_kv_cache`: walk `cache` and `new_values` in lock
step (the C++ loop runs while both iterators are valid), moving
`new_values[i]` over `cache[i]` when the trigger condition holds,
otherwise keeping the old entry. -/
def update_kv_cache (cache new_values : List Tensor) (use_cache_branch : Bool) :
    List Tensor :=
  match cache, new_values with
  | [], _ => []
  | c, [] => c
  | c :: cs, n :: ns =>
      (if kv_replace_cond c n use_cache_branch then n else c)
        :: update_kv_cache cs ns use_cache_branch

/-- The scan of `std::max_element`: `largest` starts at the first
element; each later element replaces it only when strictly greater
(`*largest < *it`), so the first occurrence of the maximum wins.
Returns the index of `largest` together with its value. -/
def max_element_scan : List ℚ → ℚ → Nat → Nat → Nat × ℚ
  | [], best_val, _, best => (best, best_val)
  | x :: xs, best_val, cur, best =>
      if best_val < x then max_element_scan xs x (cur + 1) cur
      else max_element_scan xs best_val (cur + 1) best

/-- `std::distance(v.begin(), std::max_element(v.begin(), v.end()))`:
index of the first maximal element; `0` for the empty vector
(`max_element` returns `end` = `begin` there). -/
def max_element_idx : List ℚ → Nat
  | [] => 0
  | x :: xs => (max_element_scan xs x 1 0).1

/-- `OnnxModel::get_next_token`: validate the `[1,1,V]` shape (throwing
`"Unexpected logits shape"` otherwise), copy the first `V = shape[2]`
floats, and return the linear-scan argmax index. -/
def get_next_token (logits : Tensor) : Except String Int :=
  if logits.shape.length ≠ 3 ∨ tensor_dim logits 0 ≠ 1 ∨ tensor_dim logits 1 ≠ 1 then
    Except.error "Unexpected logits shape"
  else
    let vocab_size : Nat := (tensor_dim logits 2).toNat
    let logit_vec : List ℚ := logits.data.take vocab_size
    Except.ok (Int.ofNat (max_element_idx logit_vec))

/-- The external encoder session: `encoder.Run` maps the audio buffer to
its output tensors. -/
def EncoderFn : Type := List ℚ → List Tensor

/-- The external decoder session: `decoder.Run` maps the decoder inputs
built by `decode_next_token` (current tokens, hidden state, kv cache,
`use_cache_branch`) to its output tensors (logits first, then the new
cache values). -/
def DecoderFn : Type := List Int → Tensor → List Tensor → Bool → List Tensor

/-- The `max_len` computation at the top of `OnnxModel::run`:
`audio_len = size / 16000.0; max_len = std::round(audio_len * 6)`.
The `double` arithmetic is modelled exactly over `ℚ`; for the
nonnegative argument `std::round` is `⌊x + 1/2⌋` (half away from
zero). -/
def run_max_len (n : Nat) : Nat :=
  (⌊(n : ℚ) / (sample_rate : ℚ) * (max_tokens_per_second : ℚ) + 1/2⌋).toNat

/-- `max_token_count = std::max(max_len, min_token_count)` at the top of
`OnnxModel::decode`. -/
def max_token_count (max_len : Nat) : Nat :=
  max max_len min_token_count

/-- The body of the `for (i = 0; i < max_token_count; i++)` loop of
`OnnxModel::decode`, with `fuel` the remaining iteration count
(`max_token_count - i`).  Each iteration builds the decoder inputs
(`decode_next_token` — the clones are value copies, elided), takes
`output.at(0)` as logits (`std::vector::at` throws when empty), picks
the next token, stops on the end token, otherwise appends it to the
result and updates the kv cache with the remaining outputs. -/
def decode_aux (dec : DecoderFn) (last_hidden_state : Tensor) :
    Nat → Nat → List Int → List Tensor → List Int → Except String (List Int)
  | 0, _, _, _, result_tokens => Except.ok result_tokens
  | fuel + 1, i, cur_tokens, past_key_values, result_tokens =>
    let use_cache_branch : Bool := decide (0 < i)
    match dec cur_tokens last_hidden_state past_key_values use_cache_branch with
    | [] => Except.error "vector::at out of range"
    | logits :: present_kv =>
      match get_next_token logits with
      | Except.error e => Except.error e
      | Except.ok next_token =>
        if next_token = end_token then
          Except.ok result_tokens
        else
          decode_aux dec last_hidden_state fuel (i + 1) [next_token]
            (update_kv_cache past_key_values present_kv use_cache_branch)
            (result_tokens ++ [next_token])

/-- `OnnxModel::decode`: clamp the budget, initialise the kv cache, seed
the token sequence with the start token, and run the loop. -/
def decode (dec : DecoderFn) (cfg : ModelConfig) (decoder_input_names : List String)
    (last_hidden_state : Tensor) (max_len : Nat) : Except String (List Int) :=
  decode_aux dec last_hidden_state (max_token_count max_len) 0 [start_token]
    (initialize_past_key_values cfg decoder_input_names) []

/-- `OnnxModel::run`: compute `max_len`, encode, then decode
`encode(...).at(0)` (`std::vector::at` throws when the encoder output is
empty).  `run` is `noexcept`, so an `Except.error` escaping here models
`std::terminate`, not a returned value. -/
def run (enc : EncoderFn) (dec : DecoderFn) (cfg : ModelConfig)
    (decoder_input_names : List String) (audio_data : List ℚ) : Except String (List Int) :=
  let max_len := run_max_len audio_data.length
  match enc audio_data with
  | [] => Except.error "vector::at out of range"
  | last_hidden_state :: _ =>
    decode dec cfg decoder_input_names last_hidden_state max_len

/-- `Transcriber::transcribe`: run the model; an empty token list
short-circuits to `""` without calling the tokenizer, otherwise the
external tokenizer decodes the tokens.  `transcribe` is `noexcept` and
has no `try`/`catch`, so an `Except.error` escaping models
`std::terminate`. -/
def transcribe (enc : EncoderFn) (dec : DecoderFn) (cfg : ModelConfig)
    (decoder_input_names : List String) (tokenizer : List Int → String)
    (audio_data : List ℚ) : Except String String :=
  match run enc dec cfg decoder_input_names audio_data with
  | Except.error e => Except.error e
  | Except.ok tokens =>
    if tokens.isEmpty then Except.ok ""
    else Except.ok (tokenizer tokens)

/-- `Transcriber::operator()`: `return transcribe(audio_data);`. -/
def transcriber_call (enc : EncoderFn) (dec : DecoderFn) (cfg : ModelConfig)
    (decoder_input_names : List String) (tokenizer : List Int → String)
    (audio_data : List ℚ) : Except String String :=
  transcribe enc dec cfg decoder_input_names tokenizer audio_data

/-- Decidable equality on `Except`, so that concrete runs of the embedded
code can be checked by `decide`. -/
instance instExceptDecEq {ε α : Type} [DecidableEq ε] [DecidableEq α] :
    DecidableEq (Except ε α) := fun x y =>
  match x, y with
  | .ok a, .ok b =>
      if h : a = b then isTrue (by rw [h]) else isFalse (by intro hc; cases hc; exact h rfl)
  | .error a, .error b =>
      if h : a = b then isTrue (by rw [h]) else isFalse (by intro hc; cases hc; exact h rfl)
  | .ok _, .error _ => isFalse (by intro hc; cases hc)
  | .error _, .ok _ => isFalse (by intro hc; cases hc)

/-! ## Helper lemmas -/

theorem update_kv_cache_length (cache new_values : List Tensor) (b : Bool) :
    (update_kv_cache cache new_values b).length = cache.length := by
  induction cache generalizing new_values with
  | nil => cases new_values <;> rfl
  | cons c cs ih =>
    cases new_values with
    | nil => rfl
    | cons n ns => simp [update_kv_cache, ih]

theorem update_kv_cache_get? (cache new_values : List Tensor) (b : Bool) (i : Nat)
    (ci ni : Tensor) (hci : cache.get? i = some ci) (hni : new_values.get? i = some ni) :
    (update_kv_cache cache new_values b).get? i =
      some (if kv_replace_cond ci ni b then ni else ci) := by
  induction cache generalizing new_values i with
  | nil => simp at hci
  | cons c cs ih =>
    cases new_values with
    | nil => simp at hni
    | cons n ns =>
      cases i with
      | zero =>
        simp only [List.get?] at hci hni
        cases hci; cases hni
        rfl
      | succ j =>
        simp only [List.get?] at hci hni
        simpa [update_kv_cache] using ih ns j hci hni

theorem max_element_scan_spec (xs : List ℚ) (v : ℚ) (cur best : Nat) :
    ((max_element_scan xs v cur best).1 = best ∧ (max_element_scan xs v cur best).2 = v ∨
      ∃ k, k < xs.length ∧ (max_element_scan xs v cur best).1 = cur + k ∧
        (max_element_scan xs v cur best).2 = xs.getD k 0 ∧
        v < (max_element_scan xs v cur best).2 ∧
        ∀ j < k, xs.getD j 0 < (max_element_scan xs v cur best).2) ∧
    v ≤ (max_element_scan xs v cur best).2 ∧
    ∀ k < xs.length, xs.getD k 0 ≤ (max_element_scan xs v cur best).2 := by
  induction xs generalizing v cur best with
  | nil => simp [max_element_scan]
  | cons x xs ih =>
    by_cases hvx : v < x
    · have hrec := ih x (cur + 1) cur
      simp only [max_element_scan, if_pos hvx]
      simp only [max_element_scan, if_pos hvx] at hrec ⊢
      obtain ⟨hd, hvle, hall⟩ := hrec
      refine ⟨?_, ?_, ?_⟩
      · rcases hd with ⟨h1, h2⟩ | ⟨k, hk, h1, h2, hlt, hstrict⟩
        · refine Or.inr ⟨0, by simp, by omega, by simpa using h2.symm ▸ rfl, ?_, ?_⟩
          · rw [h2]; exact hvx
          · intro j hj; omega
        · refine Or.inr ⟨k + 1, by simpa using hk, by omega, by simpa using h2, ?_, ?_⟩
          · exact lt_trans hvx hlt
          · intro j hj
            cases j with
            | zero => simpa using hlt
            | succ j' => simpa using hstrict j' (by omega)
      · exact le_of_lt (lt_of_lt_of_le hvx hvle)
      · intro k hk
        cases k with
        | zero => simpa using hvle
        | succ k' => simpa using hall k' (by simpa using hk)
    · have hrec := ih v (cur + 1) best
      simp only [max_element_scan, if_neg hvx]
      obtain ⟨hd, hvle, hall⟩ := hrec
      have hxv : x ≤ v := le_of_not_lt hvx
      refine ⟨?_, hvle, ?_⟩
      · rcases hd with ⟨h1, h2⟩ | ⟨k, hk, h1, h2, hlt, hstrict⟩
        · exact Or.inl ⟨h1, h2⟩
        · refine Or.inr ⟨k + 1, by simpa using hk, by omega, by simpa using h2, hlt, ?_⟩
          intro j hj
          cases j with
          | zero => simpa using lt_of_le_of_lt hxv hlt
          | succ j' => simpa using hstrict j' (by omega)
      · intro k hk
        cases k with
        | zero => simpa using le_trans hxv hvle
        | succ k' => simpa using hall k' (by simpa using hk)

theorem max_element_idx_spec (l : List ℚ) (hl : l ≠ []) :
    max_element_idx l < l.length ∧
    (∀ j < l.length, l.getD j 0 ≤ l.getD (max_element_idx l) 0) ∧
    ∀ j < max_element_idx l, l.getD j 0 < l.getD (max_element_idx l) 0 := by
  cases l with
  | nil => exact absurd rfl hl
  | cons x xs =>
    obtain ⟨hd, hvle, hall⟩ := max_element_scan_spec xs x 1 0
    simp only [max_element_idx]
    rcases hd with ⟨h1, h2⟩ | ⟨k, hk, h1, h2, hlt, hstrict⟩
    · rw [h1]
      refine ⟨by simp, ?_, ?_⟩
      · intro j hj
        cases j with
        | zero => simp
        | succ j' =>
          simp only [List.getD_cons_succ, List.getD_cons_zero]
          exact le_trans (hall j' (by simpa using hj)) (le_of_eq (h1 ▸ h2))
      · intro j hj; omega
    · rw [h1]
      have hget : (x :: xs).getD (1 + k) 0 = xs.getD k 0 := by
        rw [Nat.add_comm]
        simp
      have hval : (x :: xs).getD (1 + k) 0 = (max_element_scan xs x 1 0).2 := by
        rw [hget, ← h2]
      refine ⟨by simp; omega, ?_, ?_⟩
      · intro j hj
        cases j with
        | zero => rw [hval]; simpa using le_of_lt hlt
        | succ j' =>
          rw [hval]
          simpa using hall j' (by simpa using hj)
      · intro j hj
        cases j with
        | zero => rw [hval]; simpa using hlt
        | succ j' =>
          rw [hval]
          simpa using hstrict j' (by omega)

theorem decode_aux_ok_bounds (dec : DecoderFn) (hidden : Tensor) (fuel i : Nat)
    (cur : List Int) (past : List Tensor) (res out : List Int)
    (hok : decode_aux dec hidden fuel i cur past res = Except.ok out) :
    out.length ≤ res.length + fuel ∧ (end_token ∉ res → end_token ∉ out) := by
  induction fuel generalizing i cur past res with
  | zero =>
    simp only [decode_aux] at hok
    cases hok
    exact ⟨Nat.le_add_right _ _, fun h => h⟩
  | succ fuel ih =>
    simp only [decode_aux] at hok
    cases hdec : dec cur hidden past (decide (0 < i)) with
    | nil => rw [hdec] at hok; cases hok
    | cons logits present_kv =>
      rw [hdec] at hok
      dsimp only at hok
      cases htok : get_next_token logits with
      | error e => rw [htok] at hok; cases hok
      | ok next_token =>
        rw [htok] at hok
        dsimp only at hok
        by_cases hend : next_token = end_token
        · rw [if_pos hend] at hok
          cases hok
          exact ⟨Nat.le_add_right _ _, fun h => h⟩
        · rw [if_neg hend] at hok
          obtain ⟨hlen, hmem⟩ := ih (i + 1) [next_token]
            (update_kv_cache past present_kv (decide (0 < i))) (res ++ [next_token]) hok
          refine ⟨by simpa using Nat.le_trans hlen (by simp; omega), ?_⟩
          intro hres
          refine hmem ?_
          intro hc
          rcases List.mem_append.mp hc with h | h
          · exact hres h
          · simp at h
            exact hend h.symm

/-! ## Claims -/

/-- C1 (code evaluation at the failing input): with a decoder whose
logits output has shape `[1, 2, 3]`, the shape-contract error thrown in
`get_next_token` propagates out of `run` and `transcribe`; both are
`noexcept` with no `try`/`catch`, so the error escaping the facade
models `std::terminate` — the caller does not receive the empty string
the claim requires. -/
theorem C1_shape_error_escapes_transcribe :
    transcribe (fun _ => [⟨[1, 1, 1], [0]⟩])
        (fun _ _ _ _ => [⟨[1, 2, 3], [0, 0, 0, 0, 0, 0]⟩])
        baseConfig [] (fun _ => "text") [] = Except.error "Unexpected logits shape" ∧
    transcribe (fun _ => [⟨[1, 1, 1], [0]⟩])
        (fun _ _ _ _ => [⟨[1, 2, 3], [0, 0, 0, 0, 0, 0]⟩])
        baseConfig [] (fun _ => "text") [] ≠ Except.ok "" := by
  have h : transcribe (fun _ => [⟨[1, 1, 1], [0]⟩])
      (fun _ _ _ _ => [⟨[1, 2, 3], [0, 0, 0, 0, 0, 0]⟩])
      baseConfig [] (fun _ => "text") [] = Except.error "Unexpected logits shape" := by
    unfold transcribe run
    norm_num [run_max_len, sample_rate, max_tokens_per_second]
    decide
  exact ⟨h, by rw [h]; intro hc; cases hc⟩

/-- C2: `update_kv_cache` on equal-length cache and new-value lists
replaces entry `i` with new value `i` exactly when the existing entry's
leading dimension is `0`, or the new value's third-axis size exceeds
`1`, or `use_cache_branch` is false; otherwise the old entry is kept. -/
theorem C2_update_kv_cache_policy (cache new_values : List Tensor) (use_cache_branch : Bool)
    (i : Nat) (ci ni : Tensor)
    (hlen : cache.length = new_values.length)
    (hci : cache.get? i = some ci) (hni : new_values.get? i = some ni)
    (hcs : 1 ≤ ci.shape.length) (hns : 3 ≤ ni.shape.length) :
    ((tensor_dim ci 0 = 0 ∨ 1 < tensor_dim ni 2 ∨ use_cache_branch = false) →
      (update_kv_cache cache new_values use_cache_branch).get? i = some ni) ∧
    (¬(tensor_dim ci 0 = 0 ∨ 1 < tensor_dim ni 2 ∨ use_cache_branch = false) →
      (update_kv_cache cache new_values use_cache_branch).get? i = some ci) := by
  have hmain := update_kv_cache_get? cache new_values use_cache_branch i ci ni hci hni
  have hcond : kv_replace_cond ci ni use_cache_branch = true ↔
      (tensor_dim ci 0 = 0 ∨ 1 < tensor_dim ni 2 ∨ use_cache_branch = false) := by
    simp [kv_replace_cond, Bool.or_eq_true, decide_eq_true_eq, Bool.not_eq_true']
    rw [or_assoc]
  constructor
  · intro h
    rw [hmain, if_pos (hcond.mpr h)]
  · intro h
    rw [hmain, if_neg (fun hc => h (hcond.mp hc))]

/-- Witness for C2 at a concrete input: a still-empty cache entry
(leading dimension `0`) is replaced by the new value. -/
theorem C2_update_kv_cache_policy_witness :
    ((tensor_dim ⟨[0, 8, 1, 52], []⟩ 0 = 0 ∨ 1 < tensor_dim ⟨[1, 8, 1, 52], [0]⟩ 2 ∨
        true = false) →
      (update_kv_cache [⟨[0, 8, 1, 52], []⟩] [⟨[1, 8, 1, 52], [0]⟩] true).get? 0 =
        some ⟨[1, 8, 1, 52], [0]⟩) ∧
    (¬(tensor_dim ⟨[0, 8, 1, 52], []⟩ 0 = 0 ∨ 1 < tensor_dim ⟨[1, 8, 1, 52], [0]⟩ 2 ∨
        true = false) →
      (update_kv_cache [⟨[0, 8, 1, 52], []⟩] [⟨[1, 8, 1, 52], [0]⟩] true).get? 0 =
        some ⟨[0, 8, 1, 52], []⟩) :=
  C2_update_kv_cache_policy [⟨[0, 8, 1, 52], []⟩] [⟨[1, 8, 1, 52], [0]⟩] true 0
    ⟨[0, 8, 1, 52], []⟩ ⟨[1, 8, 1, 52], [0]⟩ rfl rfl rfl (by decide) (by decide)

/-- C3: the bound on decode iterations equals
`round((sample_count / 16000) * 6)` floored to at least `1`, and is
always at least `1` (the computation is a total function, so it has no
side effects and no error conditions). -/
theorem C3_token_budget (n : Nat) :
    max_token_count (run_max_len n) =
      max (Int.toNat (round ((n : ℚ) / 16000 * 6))) 1 ∧
    1 ≤ max_token_count (run_max_len n) := by
  constructor
  · unfold max_token_count run_max_len min_token_count sample_rate max_tokens_per_second
    rw [round_eq]
    norm_num
  · exact Nat.le_max_right _ _

/-- C4: on a `[1, 1, V]` logits tensor (`V ≥ 1`), `get_next_token`
returns the smallest index attaining the maximum logit (first occurrence
wins on ties); on any tensor whose shape is not exactly 3-dimensional
with leading dimensions `1, 1`, it reports the shape-contract error
instead of a token. -/
theorem C4_get_next_token_argmax (t : Tensor) (V : Nat) :
    (t.shape = [1, 1, (V : Int)] → t.data.length = V → 0 < V →
      ∃ i : Nat, get_next_token t = Except.ok (i : Int) ∧ i < V ∧
        (∀ j < V, t.data.getD j 0 ≤ t.data.getD i 0) ∧
        ∀ j < i, t.data.getD j 0 < t.data.getD i 0) ∧
    ((t.shape.length ≠ 3 ∨ tensor_dim t 0 ≠ 1 ∨ tensor_dim t 1 ≠ 1) →
      get_next_token t = Except.error "Unexpected logits shape") := by
  constructor
  · intro hshape hdata hV
    have hguard : ¬(t.shape.length ≠ 3 ∨ tensor_dim t 0 ≠ 1 ∨ tensor_dim t 1 ≠ 1) := by
      simp [hshape, tensor_dim]
    have hvocab : (tensor_dim t 2).toNat = V := by
      simp [tensor_dim, hshape]
    have htake : t.data.take (tensor_dim t 2).toNat = t.data := by
      rw [hvocab]
      exact List.take_of_length_le (le_of_eq hdata)
    have hok : get_next_token t = Except.ok ((max_element_idx t.data : Nat) : Int) := by
      rw [get_next_token, if_neg hguard]
      simp only [htake]
      rfl
    have hne : t.data ≠ [] := by
      intro hnil
      rw [hnil] at hdata
      simp at hdata
      omega
    obtain ⟨hlt, hmax, hfirst⟩ := max_element_idx_spec t.data hne
    exact ⟨max_element_idx t.data, hok, hdata ▸ hlt, fun j hj => hmax j (by omega), hfirst⟩
  · intro hguard
    rw [get_next_token, if_pos hguard]

/-- Witness for C4 at concrete inputs: on logits `[3, 3]` (shape
`[1,1,2]`, a tie) the argmax properties hold, and a `[1,2,3]`-shaped
tensor is rejected. -/
theorem C4_get_next_token_argmax_witness :
    (∃ i : Nat, get_next_token ⟨[1, 1, 2], [3, 3]⟩ = Except.ok (i : Int) ∧ i < 2 ∧
      (∀ j < 2, (⟨[1, 1, 2], [3, 3]⟩ : Tensor).data.getD j 0 ≤
        (⟨[1, 1, 2], [3, 3]⟩ : Tensor).data.getD i 0) ∧
      ∀ j < i, (⟨[1, 1, 2], [3, 3]⟩ : Tensor).data.getD j 0 <
        (⟨[1, 1, 2], [3, 3]⟩ : Tensor).data.getD i 0) ∧
    get_next_token ⟨[1, 2, 3], [0, 0, 0]⟩ = Except.error "Unexpected logits shape" :=
  ⟨(C4_get_next_token_argmax ⟨[1, 1, 2], [3, 3]⟩ 2).1 rfl rfl (by decide),
   (C4_get_next_token_argmax ⟨[1, 2, 3], [0, 0, 0]⟩ 3).2 (by decide)⟩

/-- C5 counterexample: the decode loop appends any non-end token to the
result, including the value `1` (the start-token value), so with a
decoder whose first logits argmax is index `1` the returned sequence
contains the start-token value. -/
theorem C5_counterexample_start_token_value_emitted :
    decode (fun _ _ _ _ => [⟨[1, 1, 3], [0, 5, 0]⟩]) baseConfig []
        ⟨[1, 1, 1], [0]⟩ 1 = Except.ok [start_token] ∧
    start_token ∈ [start_token] := by decide

/-- C5 (amended): any token sequence returned by a decode run has
length at most the clamped token budget and never contains the
end-token value `2`; the seeded start token itself is never copied to
the result, but a generated token may have the start-token value `1`,
so that value can appear. -/
theorem C5_amended_decode_bounds (dec : DecoderFn) (cfg : ModelConfig)
    (names : List String) (hidden : Tensor) (max_len : Nat) (out : List Int)
    (hok : decode dec cfg names hidden max_len = Except.ok out) :
    out.length ≤ max_token_count max_len ∧ end_token ∉ out := by
  obtain ⟨hlen, hmem⟩ := decode_aux_ok_bounds dec hidden (max_token_count max_len) 0
    [start_token] (initialize_past_key_values cfg names) [] out hok
  exact ⟨by simpa using hlen, hmem (by simp)⟩

/-- Witness for C5 (amended) at a concrete input: a decoder that
immediately emits the end token gives the empty result, within budget
and without the end token. -/
theorem C5_amended_decode_bounds_witness :
    ([] : List Int).length ≤ max_token_count 1 ∧ end_token ∉ ([] : List Int) :=
  C5_amended_decode_bounds (fun _ _ _ _ => [⟨[1, 1, 3], [0, 0, 5]⟩]) baseConfig []
    ⟨[1, 1, 1], [0]⟩ 1 [] (by decide)

/-- C7: a decode run whose very first step yields the end token returns
the empty token sequence, and whenever the model run yields an empty
token sequence, `transcribe` returns the empty string whatever the
tokenizer does (so the tokenizer is never consulted). -/
theorem C7_empty_tokens_short_circuit (enc : EncoderFn) (dec : DecoderFn)
    (cfg : ModelConfig) (names : List String) (audio_data : List ℚ) :
    (∀ hidden hs logits ls, enc audio_data = hidden :: hs →
      dec [start_token] hidden (initialize_past_key_values cfg names) false = logits :: ls →
      get_next_token logits = Except.ok end_token →
      run enc dec cfg names audio_data = Except.ok []) ∧
    (run enc dec cfg names audio_data = Except.ok [] →
      ∀ tokenizer, transcribe enc dec cfg names tokenizer audio_data = Except.ok "") := by
  constructor
  · intro hidden hs logits ls henc hdec htok
    rw [run, henc]
    dsimp only
    unfold decode
    have hpos : 0 < max_token_count (run_max_len audio_data.length) :=
      Nat.lt_of_lt_of_le Nat.zero_lt_one (Nat.le_max_right _ _)
    cases hmt : max_token_count (run_max_len audio_data.length) with
    | zero => rw [hmt] at hpos; exact absurd hpos (by omega)
    | succ k =>
      have hbranch : (decide (0 < 0) : Bool) = false := by decide
      rw [decode_aux.eq_def]
      dsimp only
      rw [hbranch, hdec]
      dsimp only
      rw [htok]
      dsimp only
      rw [if_pos rfl]
  · intro hrun tokenizer
    rw [transcribe, hrun]
    rfl

/-- Witness for C7 at a concrete input: an encoder output and a decoder
whose first logits argmax is the end-token index `2` give an empty run
and an empty transcription. -/
theorem C7_empty_tokens_short_circuit_witness :
    run (fun _ => [⟨[1, 1, 1], [0]⟩]) (fun _ _ _ _ => [⟨[1, 1, 3], [0, 0, 5]⟩])
        baseConfig [] [] = Except.ok [] ∧
    transcribe (fun _ => [⟨[1, 1, 1], [0]⟩]) (fun _ _ _ _ => [⟨[1, 1, 3], [0, 0, 5]⟩])
        baseConfig [] (fun _ => "never") [] = Except.ok "" :=
  ⟨(C7_empty_tokens_short_circuit (fun _ => [⟨[1, 1, 1], [0]⟩])
      (fun _ _ _ _ => [⟨[1, 1, 3], [0, 0, 5]⟩]) baseConfig [] []).1
      ⟨[1, 1, 1], [0]⟩ [] ⟨[1, 1, 3], [0, 0, 5]⟩ [] rfl rfl (by decide),
   (C7_empty_tokens_short_circuit (fun _ => [⟨[1, 1, 1], [0]⟩])
      (fun _ _ _ _ => [⟨[1, 1, 3], [0, 0, 5]⟩]) baseConfig [] []).2
      ((C7_empty_tokens_short_circuit (fun _ => [⟨[1, 1, 1], [0]⟩])
        (fun _ _ _ _ => [⟨[1, 1, 3], [0, 0, 5]⟩]) baseConfig [] []).1
        ⟨[1, 1, 1], [0]⟩ [] ⟨[1, 1, 3], [0, 0, 5]⟩ [] rfl rfl (by decide))
      (fun _ => "never")⟩

/-- C6 counterexample: `initialize_past_key_values` creates one entry
per decoder input name containing `"past_key_values"`, so with the Base
config (8 layers) and a name list declaring two such inputs the store
has 2 entries, not `num_layers`. -/
theorem C6_counterexample_entry_count :
    (initialize_past_key_values baseConfig
        ["input_ids", "encoder_hidden_states", "past_key_values.0.decoder.key",
         "past_key_values.0.decoder.value", "use_cache_branch"]).length ≠
      baseConfig.num_layers.toNat := by decide

/-- C6 (amended): the KV-cache store holds exactly one entry per
decoder input whose name contains `"past_key_values"` after
initialization, and every `update_kv_cache` call preserves the entry
count. -/
theorem C6_amended_cache_entry_count (cfg : ModelConfig) (names : List String)
    (cache new_values : List Tensor) (b : Bool) :
    (initialize_past_key_values cfg names).length =
      (names.filter (fun key => str_contains_sub key "past_key_values")).length ∧
    (update_kv_cache cache new_values b).length = cache.length := by
  constructor
  · unfold initialize_past_key_values
    exact List.length_map _ _
  · exact update_kv_cache_length cache new_values b

/-- C8: model-family selection from a string tag is case-insensitive:
any casing of `"base"` resolves to the Base configuration (8 layers,
8 kv-heads, head dim 52), any casing of `"tiny"` to the Tiny
configuration (6 layers, 8 kv-heads, head dim 36), and any other string
resolves to `none` rather than crashing. -/
theorem C8_from_string_case_insensitive :
    (∀ s : String, s.toList.map Char.toLower = "base".toList →
      from_string s = some ModelType.Base) ∧
    (∀ s : String, s.toList.map Char.toLower = "tiny".toList →
      from_string s = some ModelType.Tiny) ∧
    (∀ s : String, s.toList.map Char.toLower ≠ "base".toList →
      s.toList.map Char.toLower ≠ "tiny".toList → from_string s = none) ∧
    from_string "TINY" = some ModelType.Tiny ∧
    from_string "medium" = none ∧
    transcriber_model_config ModelType.Base = { num_layers := 8, num_kv_heads := 8, head_dim := 52 } ∧
    transcriber_model_config ModelType.Tiny = { num_layers := 6, num_kv_heads := 8, head_dim := 36 } := by
  refine ⟨?_, ?_, ?_, by decide, by decide, rfl, rfl⟩
  · intro s h
    unfold from_string
    rw [h]
    decide
  · intro s h
    unfold from_string
    rw [h]
    decide
  · intro s h1 h2
    unfold from_string
    rw [if_neg, if_neg]
    · intro hc
      exact h2 (congrArg String.data hc)
    · intro hc
      exact h1 (congrArg String.data hc)

/-- Witness for C8 at a concrete input: the mixed-case `"BaSe"` resolves
to the Base model. -/
theorem C8_from_string_case_insensitive_witness :
    from_string "BaSe" = some ModelType.Base :=
  C8_from_string_case_insensitive.1 "BaSe" (by decide)

/-- C10: `Transcriber::operator()` returns exactly what
`Transcriber::transcribe` returns on the same input. -/
theorem C10_call_operator_is_transcribe (enc : EncoderFn) (dec : DecoderFn)
    (cfg : ModelConfig) (names : List String) (tokenizer : List Int → String)
    (audio_data : List ℚ) :
    transcriber_call enc dec cfg names tokenizer audio_data =
      transcribe enc dec cfg names tokenizer audio_data := rfl

end Moonshine
